import Mathlib

/-!
Verification of the xpath_syntax_tree module (pure-python-xpath).

The development shallowly embeds `src/xpath_syntax_tree.py`: the Expression
AST, its `evaluate` contract over `(selected, rejected)` node lists, the
shunting-yard pass `_predicate_to_postfix`, the operand-stack reduction
`_predicate_postfix_to_tree`, and the path compiler `xpath_to_syntax_tree`.
Fallible Python operations (IndexError, ValueError, SyntaxError, TypeError,
NotImplementedError) are modelled with `Except`.

Document nodes are external to the module (BeautifulSoup-style tags); they
are modelled from the interface the module consumes: a tag name, a
string-to-string attribute mapping, text content, and `find_all()`
enumerating all descendants (self excluded, document order).
-/

-- CandidateNode: tag name, attribute mapping, text content, child nodes.
-- `NodeList` is an inlined list of children so that equality and the
-- descendant enumeration are plain structural recursions.
mutual
/-- CandidateNode of the module's node interface. -/
inductive Node where
  | mk (name : String) (attrs : List (String × String)) (text : String) (children : NodeList)
deriving DecidableEq
inductive NodeList where
  | nil
  | cons (head : Node) (tail : NodeList)
deriving DecidableEq
end

def Node.name : Node → String
  | .mk n _ _ _ => n

def Node.attrs : Node → List (String × String)
  | .mk _ a _ _ => a

def Node.text : Node → String
  | .mk _ _ t _ => t

def Node.children : Node → NodeList
  | .mk _ _ _ c => c

-- Modelled from the node interface the module consumes (external to
-- src/): `x.find_all()` enumerates every node strictly below `x` (self
-- excluded), in document order.
mutual
def Node.find_all : Node → List Node
  | .mk _ _ _ cs => NodeList.descendants cs
def NodeList.descendants : NodeList → List Node
  | .nil => []
  | .cons c cs => c :: c.find_all ++ NodeList.descendants cs
end

/-- Python runtime and module-raised errors surfacing from compile/evaluate. -/
inductive XErr where
  | invalidComparisonArguments
  | comparisonTypeMismatch
  | pyTypeError
  | attributeError
  | unpackError
  | notImplementedError
  | indexError
  | valueError
  | outOfFuel
deriving DecidableEq

/-- The six comparison operator classes share one evaluate body in the
source, differing only in the Python comparison used; the operator is
factored out here. -/
inductive CmpOp where
  | gt | ge | lt | le | eq | ne
deriving DecidableEq

/-- The Expression hierarchy of the source, with each class's children
inlined at the arity the compiler actually builds (`add_child` calls). -/
inductive Expr where
  | attributeName (value : String)
  | stringLiteral (value : String)
  | numberLiteral (value : Int)
  | selectFromRootNode
  | selectAll
  | selectStar
  | selectHTMLTag (tag_name : String)
  | selectText
  | selectAttribute (attribute_name : String)
  | comparison (op : CmpOp) (child0 child1 : Expr)
  | logicalAnd (child0 child1 : Expr)
  | logicalOr (child0 child1 : Expr)
  | logicalNot (child0 : Expr)
  | textContains (child0 child1 : Expr)
  | textStartsWith (child0 child1 : Expr)
  | textEndsWith (child0 child1 : Expr)
  | textLength (child0 : Expr)
deriving DecidableEq

/-- An evaluate call returns a `(selected, rejected)` pair for steps and
predicates, a list of scalar strings for the terminal steps, or Python
`None` for the base-class `evaluate` the literal leaves inherit. -/
inductive EvalResult where
  | none
  | pair (pos neg : List Node)
  | scalars (values : List String)
deriving DecidableEq

/-- Python values appearing as `.value` of comparison operands:
NumberLiteral ints, StringLiteral strings, and attribute-name strings. -/
inductive Val where
  | int (i : Int)
  | str (s : String)
deriving DecidableEq

def Expr.isAttributeName : Expr → Bool
  | .attributeName _ => true
  | _ => false

def Expr.isStringLiteral : Expr → Bool
  | .stringLiteral _ => true
  | _ => false

def Expr.isNumberLiteral : Expr → Bool
  | .numberLiteral _ => true
  | _ => false

def Expr.isOperandKind (e : Expr) : Bool :=
  e.isAttributeName || e.isNumberLiteral || e.isStringLiteral

/-- Reading `.value` off an operand (AttributeName stores the key string);
any other class has no `.value` attribute. -/
def Expr.value : Expr → Except XErr Val
  | .attributeName v => pure (.str v)
  | .stringLiteral v => pure (.str v)
  | .numberLiteral v => pure (.int v)
  | _ => throw .attributeError

def Expr.attrKey : Expr → Except XErr String
  | .attributeName v => pure v
  | _ => throw .attributeError

/-- Python lexicographic code-point ordering on strings, via char lists. -/
def charsLt : List Char → List Char → Bool
  | [], [] => false
  | [], _ :: _ => true
  | _ :: _, [] => false
  | a :: as, b :: bs => a < b || (a == b && charsLt as bs)

/-- Python `==` across values: same-type comparison, `False` across types. -/
def pyEqVal : Val → Val → Bool
  | .int a, .int b => a == b
  | .str a, .str b => a == b
  | _, _ => false

/-- Python `<` across values: same-type comparison, `TypeError` across
int/str. -/
def pyLtVal : Val → Val → Except XErr Bool
  | .int a, .int b => pure (decide (a < b))
  | .str a, .str b => pure (charsLt a.data b.data)
  | _, _ => throw .pyTypeError

/-- The Python comparison each operator class performs on two values. -/
def pyCompare : CmpOp → Val → Val → Except XErr Bool
  | .eq, a, b => pure (pyEqVal a b)
  | .ne, a, b => pure (!(pyEqVal a b))
  | .gt, a, b => do pure (← pyLtVal b a)
  | .ge, a, b => do pure (!(← pyLtVal a b))
  | .lt, a, b => pyLtVal a b
  | .le, a, b => do pure (!(← pyLtVal b a))

/-- Comparison._check_arguments: children must be operand classes, and a
NumberLiteral is never compared against a StringLiteral. -/
def check_arguments (child0 child1 : Expr) : Except XErr Unit := do
  let r := child0
  let l := child1
  if !l.isOperandKind then throw .invalidComparisonArguments
  if !r.isOperandKind then throw .invalidComparisonArguments
  if l.isNumberLiteral && r.isStringLiteral then throw .comparisonTypeMismatch
  if l.isStringLiteral && r.isNumberLiteral then throw .comparisonTypeMismatch
  pure ()

/-- A Python list comprehension whose filter condition can raise. -/
def filterExcept (p : Node → Except XErr Bool) : List Node → Except XErr (List Node)
  | [] => pure []
  | x :: xs => do
    let b ← p x
    let rest ← filterExcept p xs
    pure (if b then x :: rest else rest)

/-- Shared body of GreaterThan/GreaterThanOrEqual/SmallerThan/
SmallerThanOrEqual/Equal/NotEqual `.evaluate`: `r = children[0]`,
`l = children[1]`.  The first guard in the source reads
`l.__class__ != AttributeName and l.__class__ != AttributeName`, testing
`l` twice, so the "literal arguments only" branch fires whenever `l`
alone is not an AttributeName, and the final `r`-only branch is
unreachable. -/
def comparisonEvaluate (op : CmpOp) (child0 child1 : Expr)
    (node_set_pos node_set_neg : List Node) : Except XErr EvalResult := do
  check_arguments child0 child1
  let r := child0
  let l := child1
  -- literal arguments only (source tests `l` in both conjuncts)
  if !l.isAttributeName && !l.isAttributeName then
    let lv ← l.value
    let rv ← r.value
    let b ← pyCompare op lv rv
    if b then
      return .pair node_set_pos node_set_neg
    else
      return .pair [] node_set_pos
  -- both arguments are an attribute name
  if l.isAttributeName && r.isAttributeName then
    let lk ← l.attrKey
    let rk ← r.attrKey
    let pos ← filterExcept (fun x =>
      match x.attrs.lookup lk, x.attrs.lookup rk with
      | some lv, some rv => pyCompare op (.str lv) (.str rv)
      | _, _ => pure false) node_set_pos
    return .pair pos (node_set_pos.filter (fun x => !(pos.contains x)))
  -- one of the arguments is an attribute name
  if l.isAttributeName then
    let lk ← l.attrKey
    let rv ← r.value
    let pos ← filterExcept (fun x =>
      match x.attrs.lookup lk with
      | some lv => pyCompare op (.str lv) rv
      | _ => pure false) node_set_pos
    return .pair pos (node_set_pos.filter (fun x => !(pos.contains x)))
  if r.isAttributeName then
    let rk ← r.attrKey
    let lv ← l.value
    let pos ← filterExcept (fun x =>
      match x.attrs.lookup rk with
      | some rv => pyCompare op lv (.str rv)
      | _ => pure false) node_set_pos
    return .pair pos (node_set_pos.filter (fun x => !(pos.contains x)))
  return .none

/-- Tuple-unpacking `(a, b) = child.evaluate(...)`; a non-pair result
(Python `None` or a scalar list) is modelled as an unpacking error. -/
def unpackPair : EvalResult → Except XErr (List Node × List Node)
  | .pair a b => pure (a, b)
  | _ => throw .unpackError

/-- Python `list(set(xs))`: duplicates collapse; CPython's set iteration
order is unspecified, so every statement below about such a list is a
membership statement. -/
def pySetList : List Node → List Node
  | [] => []
  | x :: xs =>
    let rest := pySetList xs
    if rest.contains x then rest else x :: rest

/-- The `atr`/`val` assignment shared by TextContains/TextStartsWith/
TextEndsWith: both stay Python `None` unless exactly one child is an
AttributeName and the other a StringLiteral. -/
def textAttrVal (child0 child1 : Expr) : Option (String × String) :=
  match child0, child1 with
  | .attributeName a, .stringLiteral v => some (a, v)
  | .stringLiteral v, .attributeName a => some (a, v)
  | _, _ => Option.none

/-- Shared body of the three text-predicate `.evaluate`s, with `test`
the string check against the attribute value.  When `atr` is `None`,
Python's `None in x.attrs` is `False` on a str-keyed dict, so every
input node lands in the rejected comprehension. -/
def textPredicateEvaluate (test : String → String → Bool) (child0 child1 : Expr)
    (node_set_pos : List Node) : EvalResult :=
  match textAttrVal child0 child1 with
  | some (atr, val) =>
    .pair (node_set_pos.filter (fun x =>
             match x.attrs.lookup atr with
             | some s => test s val
             | _ => false))
          (node_set_pos.filter (fun x =>
             match x.attrs.lookup atr with
             | some s => !(test s val)
             | _ => true))
  | _ => .pair [] node_set_pos

/-- Python `needle in haystack` substring test, on char lists. -/
def charsPrefixOf : List Char → List Char → Bool
  | [], _ => true
  | _ :: _, [] => false
  | a :: as, b :: bs => a == b && charsPrefixOf as bs

def charsInfixOf (needle haystack : List Char) : Bool :=
  charsPrefixOf needle haystack ||
    match haystack with
    | [] => false
    | _ :: rest => charsInfixOf needle rest

def pyContainsTest (s val : String) : Bool := charsInfixOf val.data s.data

def pyStartswithTest (s val : String) : Bool := charsPrefixOf val.data s.data

def pyEndswithTest (s val : String) : Bool := charsPrefixOf val.data.reverse s.data.reverse

/-- SelectAll body: `o = []; for x in node_set_pos: for y in x.find_all():
o.append(y)`. -/
def descendantsOfAll (node_set_pos : List Node) : List Node :=
  node_set_pos.foldr (fun x acc => x.find_all ++ acc) []

/-- Expression.evaluate dispatch over the class hierarchy.  The literal
leaves inherit the base-class `evaluate`, which returns `None`.
LogicalAnd and LogicalOr both evaluate `self.children[0]` twice —
`children[1]` is never evaluated — exactly as in the source. -/
def evaluate : Expr → List Node → List Node → Except XErr EvalResult
  | .attributeName _, _, _ => pure .none
  | .stringLiteral _, _, _ => pure .none
  | .numberLiteral _, _, _ => pure .none
  | .selectFromRootNode, node_set_pos, node_set_neg => pure (.pair node_set_pos node_set_neg)
  | .selectAll, node_set_pos, _ => pure (.pair (descendantsOfAll node_set_pos) [])
  | .selectStar, node_set_pos, _ => pure (.pair (descendantsOfAll node_set_pos) [])
  | .selectHTMLTag tag, node_set_pos, _ =>
      pure (.pair (node_set_pos.filter (fun x => x.name == tag)) [])
  | .selectText, node_set_pos, _ => pure (.scalars (node_set_pos.map Node.text))
  | .selectAttribute a, node_set_pos, _ =>
      pure (.scalars (node_set_pos.map (fun x => (x.attrs.lookup a).getD "")))
  | .comparison op c0 c1, node_set_pos, node_set_neg =>
      comparisonEvaluate op c0 c1 node_set_pos node_set_neg
  | .logicalAnd c0 _c1, node_set_pos, node_set_neg => do
      let (a, b) ← unpackPair (← evaluate c0 node_set_pos node_set_neg)
      let (c, d) ← unpackPair (← evaluate c0 node_set_pos node_set_neg)
      let pos := a.filter (fun x => c.contains x)
      let neg := pySetList ((a ++ b ++ c ++ d).filter (fun x => !(pos.contains x)))
      pure (.pair pos neg)
  | .logicalOr c0 _c1, node_set_pos, node_set_neg => do
      let (a, b) ← unpackPair (← evaluate c0 node_set_pos node_set_neg)
      let (c, d) ← unpackPair (← evaluate c0 node_set_pos node_set_neg)
      let pos := pySetList (c ++ a)
      let neg := pySetList ((a ++ b ++ c ++ d).filter (fun x => !(pos.contains x)))
      pure (.pair pos neg)
  | .logicalNot _c0, node_set_pos, node_set_neg => pure (.pair node_set_neg node_set_pos)
  | .textContains c0 c1, node_set_pos, _ =>
      pure (textPredicateEvaluate pyContainsTest c0 c1 node_set_pos)
  | .textStartsWith c0 c1, node_set_pos, _ =>
      pure (textPredicateEvaluate pyStartswithTest c0 c1 node_set_pos)
  | .textEndsWith c0 c1, node_set_pos, _ =>
      pure (textPredicateEvaluate pyEndswithTest c0 c1 node_set_pos)
  | .textLength _, _, _ => throw .notImplementedError

deriving instance DecidableEq for Except


/-- Python `t.startswith(c)` for a single character. -/
def strHeadIs (t : String) (c : Char) : Bool :=
  match t.data with
  | [] => false
  | d :: _ => d == c

def strHeadIsDigit (t : String) : Bool :=
  match t.data with
  | [] => false
  | d :: _ => d.isDigit

/-- Python `txt[1:]`. -/
def pyDropFirst (t : String) : String := String.mk (t.data.drop 1)

/-- Python `txt[1:len(txt)-1]`. -/
def pyInnerText (t : String) : String := String.mk ((t.data.drop 1).dropLast)

/-- Decimal value of an all-digit token, Python `int(txt)`. -/
def decNat (cs : List Char) : Nat := cs.foldl (fun n c => n * 10 + (c.toNat - 48)) 0

/-- One token of `_predicate_postfix_to_tree`'s loop: operands push a
leaf; operators pop their children with `tree.pop(-1)` — the first pop
becomes `children[0]`, the second `children[1]`.  The operand stack is a
list whose head is the Python list's end (the top); popping an empty
stack is an IndexError; `int(txt)` on a token that starts with a digit
but is not all digits is a ValueError. -/
def tree_step (tree : List Expr) (t : String) : Except XErr (List Expr) :=
  if strHeadIs t '@' then pure (.attributeName (pyDropFirst t) :: tree)
  else if strHeadIs t '\x27' then pure (.stringLiteral (pyInnerText t) :: tree)
  else if strHeadIsDigit t then
    if t.data.all Char.isDigit then pure (.numberLiteral (Int.ofNat (decNat t.data)) :: tree)
    else throw .valueError
  else if t == ">" then
    match tree with
    | a :: b :: rest => pure (.comparison .gt a b :: rest)
    | _ => throw .indexError
  else if t == ">=" then
    match tree with
    | a :: b :: rest => pure (.comparison .ge a b :: rest)
    | _ => throw .indexError
  else if t == "<" then
    match tree with
    | a :: b :: rest => pure (.comparison .lt a b :: rest)
    | _ => throw .indexError
  else if t == "<=" then
    match tree with
    | a :: b :: rest => pure (.comparison .le a b :: rest)
    | _ => throw .indexError
  else if t == "=" then
    match tree with
    | a :: b :: rest => pure (.comparison .eq a b :: rest)
    | _ => throw .indexError
  else if t == "!=" then
    match tree with
    | a :: b :: rest => pure (.comparison .ne a b :: rest)
    | _ => throw .indexError
  else if t == "and" then
    match tree with
    | a :: b :: rest => pure (.logicalAnd a b :: rest)
    | _ => throw .indexError
  else if t == "or" then
    match tree with
    | a :: b :: rest => pure (.logicalOr a b :: rest)
    | _ => throw .indexError
  else if t == "not" then
    match tree with
    | a :: rest => pure (.logicalNot a :: rest)
    | _ => throw .indexError
  else if t == "ends-with" then
    match tree with
    | a :: b :: rest => pure (.textEndsWith a b :: rest)
    | _ => throw .indexError
  else if t == "starts-with" then
    match tree with
    | a :: b :: rest => pure (.textStartsWith a b :: rest)
    | _ => throw .indexError
  else if t == "contains" then
    match tree with
    | a :: b :: rest => pure (.textContains a b :: rest)
    | _ => throw .indexError
  else if t == "length" then
    match tree with
    | a :: rest => pure (.textLength a :: rest)
    | _ => throw .indexError
  else pure tree

/-- `_predicate_postfix_to_tree`: run the operand-stack reduction and
return `tree[0]` — the bottom-most (earliest-pushed) subtree, which is
the last element of the head-is-top list; `tree[0]` of an empty list is
an IndexError. -/
def predicate_postfix_to_tree (ts : List String) : Except XErr Expr := do
  let tree ← ts.foldlM tree_step []
  match tree.getLast? with
  | some e => pure e
  | _ => throw .indexError

def l_b : List String := ["(", "\x7b", "["]

def r_b : List String := [")", "\x7d", "]"]

/-- `_precedence`. -/
def precedence (xpath_operator : String) : Nat :=
  if xpath_operator == "=" then 1
  else if xpath_operator == "or" then 2
  else if xpath_operator == "and" then 3
  else if xpath_operator == ">" || xpath_operator == ">=" ||
          xpath_operator == "<" || xpath_operator == "<=" then 4
  else if xpath_operator == "+" || xpath_operator == "-" then 5
  else if xpath_operator == "mul" || xpath_operator == "div" then 6
  else if xpath_operator == "not" then 7
  else 8

/-- `_is_left_associative`. -/
def is_left_associative (_xpath_operator : String) : Bool := true

/-- The right-bracket inner loop: pop operators to output until the stack
is empty or its top is a left bracket. -/
def popWhileNotLeftBracket : List String → List String × List String
  | [] => ([], [])
  | s :: ss =>
    if l_b.contains s then ([], s :: ss)
    else
      let (p, rest) := popWhileNotLeftBracket ss
      (s :: p, rest)

/-- The operator-case inner loop: pop while the top is not a left bracket
and has greater precedence, or equal precedence with a left-associative
incoming token. -/
def popGreaterPrecedence (t : String) : List String → List String × List String
  | [] => ([], [])
  | s :: ss =>
    if !(l_b.contains s) &&
        (precedence s > precedence t ||
          (precedence s == precedence t && is_left_associative t)) then
      let (p, rest) := popGreaterPrecedence t ss
      (s :: p, rest)
    else ([], s :: ss)

/-- One token of `_predicate_to_postfix`'s while-loop, over the pair
(output so far, operator stack with list head as the Python list's end).
A token counts as an operand only when it starts with `@` or a quote;
everything else that is not a bracket, comma or space — bare numbers
included — takes the operator path.  `operator_stack[-1]` after draining
an empty stack (a right bracket with no opener) is an IndexError. -/
def shunt_step (out operator_stack : List String) (t : String) :
    Except XErr (List String × List String) :=
  if t == "," then pure (out, operator_stack)
  else if t == " " then pure (out, operator_stack)
  else if l_b.contains t then pure (out, t :: operator_stack)
  else if r_b.contains t then
    let (popped, rest) := popWhileNotLeftBracket operator_stack
    match rest with
    | [] => throw .indexError
    | s :: rest2 =>
      if l_b.contains s then pure (out ++ popped, rest2)
      else pure (out ++ popped, s :: rest2)
  else if strHeadIs t '@' || strHeadIs t '\x27' then pure (out ++ [t], operator_stack)
  else
    let (popped, rest) := popGreaterPrecedence t operator_stack
    pure (out ++ popped, t :: rest)

/-- `_predicate_to_postfix`: fold the shunting step over the slice; the
source returns `out` as is, silently discarding any operators (for
example an unmatched opening bracket) still on the stack. -/
def predicate_to_postfix_pass (ts : List String) : Except XErr (List String) := do
  let (out, _leftover) ← ts.foldlM (fun s t => shunt_step s.1 s.2 t) ([], [])
  pure out

/-- The composition the path compiler applies to a bracketed slice:
`self._predicate_postfix_to_tree(self._predicate_to_postfix(...))`. -/
def compile_predicate (ts : List String) : Except XErr Expr := do
  predicate_postfix_to_tree (← predicate_to_postfix_pass ts)

/-- Python regex `^[a-zA-Z]+$`. -/
def isAlphaToken (t : String) : Bool := !t.data.isEmpty && t.data.all Char.isAlpha

/-- The scanning while-loop of `xpath_to_syntax_tree` over the remaining
token list; the fuel only bounds the loop (each iteration consumes at
least one token, so `length + 1` never runs out).  `tokens.index(']', i)`
raises ValueError when no `]` follows; reading `tokens[i+1]`/`tokens[i+2]`
past the end of the list raises IndexError. -/
def xpath_tree_loop : Nat → List String → Except XErr (List Expr)
  | 0, _ => throw .outOfFuel
  | _, [] => pure []
  | fuel+1, t :: rest =>
    if t == "[" then
      match rest.findIdx? (fun s => s == "]") with
      | some k => do
          let node ← compile_predicate (t :: rest.take (k+1))
          let more ← xpath_tree_loop fuel (rest.drop (k+1))
          pure (node :: more)
      | _ => throw .valueError
    else if t == "/" then do
      pure (.selectFromRootNode :: (← xpath_tree_loop fuel rest))
    else if t == "//" then do
      pure (.selectAll :: (← xpath_tree_loop fuel rest))
    else if t == "*" then do
      pure (.selectStar :: (← xpath_tree_loop fuel rest))
    else if strHeadIs t '@' then do
      pure (.selectAttribute (pyDropFirst t) :: (← xpath_tree_loop fuel rest))
    else if t == "text" then
      match rest with
      | [] => throw .indexError
      | r1 :: rest2 =>
        if r1 == "(" then
          match rest2 with
          | [] => throw .indexError
          | r2 :: rest3 =>
            if r2 == ")" then do
              pure (.selectText :: (← xpath_tree_loop fuel rest3))
            else do
              pure (.selectText :: (← xpath_tree_loop fuel rest))
        else do
          pure (.selectText :: (← xpath_tree_loop fuel rest))
    else if isAlphaToken t then do
      pure (.selectHTMLTag t :: (← xpath_tree_loop fuel rest))
    else do
      xpath_tree_loop fuel rest

/-- `xpath_to_syntax_tree`, over the token stream the external tokenizer
produces for the query. -/
def xpath_to_syntax_tree (tokens : List String) : Except XErr (List Expr) :=
  xpath_tree_loop (tokens.length + 1) tokens


/-- A candidate node with attributes a="1", b="3". -/
def nodeA13 : Node := .mk "div" [("a", "1"), ("b", "3")] "" .nil

/-- A candidate node with the single attribute a="1". -/
def nodeA1 : Node := .mk "div" [("a", "1")] "" .nil

/-- A childless candidate node. -/
def nodeLeaf : Node := .mk "p" [] "hi" .nil

/-- A candidate node whose only descendant is `nodeLeaf`. -/
def nodeParent : Node := .mk "div" [] "" (.cons nodeLeaf .nil)

/-- The predicate tree compiled from infix `@a = '1'`:
`children[0] = StringLiteral '1'`, `children[1] = AttributeName a`. -/
def predA1 : Expr := .comparison .eq (.stringLiteral "1") (.attributeName "a")

/-- The predicate tree compiled from infix `@b = '2'`. -/
def predB2 : Expr := .comparison .eq (.stringLiteral "2") (.attributeName "b")

/-- C1: the claim says LogicalAnd.evaluate runs both distinct children P
and Q and intersects their selected outputs, so that `@a='1' and @b='2'`
excludes a node with a="1", b="3".  The source evaluates
`self.children[0]` twice and never evaluates `children[1]`: with
P = (@a='1') and Q = (@b='2') the node {a:"1", b:"3"} stays selected
(first conjunct); replacing Q by the always-raising TextLength predicate
still succeeds, so Q is never evaluated (second conjunct); and the
predicate tree actually compiled for `[@a='1' and @b='2']` even fails
with a SyntaxError when evaluated on that node (third conjunct). -/
theorem c1_logicalAnd_evaluates_first_child_twice :
    evaluate (.logicalAnd predA1 predB2) [nodeA13] [] = .ok (.pair [nodeA13] [])
  ∧ evaluate (.logicalAnd predA1 (.textLength (.attributeName "b"))) [nodeA13] []
      = .ok (.pair [nodeA13] [])
  ∧ evaluate (.comparison .eq (.stringLiteral "2")
        (.comparison .eq (.logicalAnd (.attributeName "b") (.stringLiteral "1"))
          (.attributeName "a"))) [nodeA13] []
      = .error .invalidComparisonArguments := by
  decide

/-- C2: the claim says a comparison between one attribute reference and
one literal partitions by the attribute's value in either child order.
In the order where the literal is the second-popped (left infix) child —
the tree the compiler builds for `'1' = @a` — the source's doubled `l`
test sends evaluation down the "literal arguments only" branch, which
compares the literal `'1'` against the attribute NAME string `"a"` and
rejects every node, including one whose attribute a equals "1". -/
theorem c2_attr_in_child0_takes_literal_branch :
    compile_predicate ["[", "\x271\x27", "=", "@a", "]"]
      = .ok (.comparison .eq (.attributeName "a") (.stringLiteral "1"))
  ∧ evaluate (.comparison .eq (.attributeName "a") (.stringLiteral "1")) [nodeA1] []
      = .ok (.pair [] [nodeA1])
  ∧ evaluate (.comparison .gt (.attributeName "a") (.numberLiteral 0)) [nodeA1] []
      = .error .pyTypeError := by
  decide

/-- C3 counterexample: a compiled LogicalNot predicate (from
`[not (@a = '1')]`) returns the input rejected set as its selected
output, so a node absent from the input selected set appears in the
output union: with input `(selected, rejected) = ([], [nodeLeaf])` the
output is `([nodeLeaf], [])`, and `nodeLeaf` is not a member of the
empty input selected set. -/
theorem c3_counterexample :
    compile_predicate ["[", "not", "(", "@a", "=", "\x271\x27", ")", "]"]
      = .ok (.logicalNot predA1)
  ∧ evaluate (.logicalNot predA1) [] [nodeLeaf] = .ok (.pair [nodeLeaf] [])
  ∧ (([] : List Node).contains nodeLeaf) = false := by
  decide

/-- C7 counterexample: the claim says SelectDescendantsOrSelf returns
each input node itself followed by its descendants.  On a childless
input node the source's `x.find_all()` enumeration (descendants only,
self excluded) yields the empty list, not `[nodeLeaf]`; SelectWildcard
behaves identically. -/
theorem c7_counterexample :
    evaluate .selectAll [nodeLeaf] [] = .ok (.pair [] [])
  ∧ evaluate .selectStar [nodeLeaf] [] = .ok (.pair [] []) := by
  decide

/-- C8: the claim says a token stream ending with the bare token `text`
compiles, appending SelectText.  The source reads `tokens[i+1]` without
a bounds check, so a final `text` token raises IndexError (first
conjunct); the parenthesised form compiles (second conjunct), and a
following non-`(` token is left alone thanks to short-circuiting (third
conjunct). -/
theorem c8_trailing_text_token_raises_index_error :
    xpath_to_syntax_tree ["/", "text"] = .error .indexError
  ∧ xpath_to_syntax_tree ["/", "text", "(", ")"] = .ok [.selectFromRootNode, .selectText]
  ∧ xpath_to_syntax_tree ["/", "text", "and"]
      = .ok [.selectFromRootNode, .selectText, .selectHTMLTag "and"] := by
  decide

/-- C9: LogicalNot.evaluate returns exactly `(rejected, selected)` for
every input pair and every child — the child is never evaluated, which
the arbitrary `child` expression (it may even be the always-raising
TextLength) witnesses — and applying LogicalNot twice returns the
original pair. -/
theorem c9_logicalNot_swaps_and_is_involutive :
    (∀ (child : Expr) (sel rej : List Node),
        evaluate (.logicalNot child) sel rej = .ok (.pair rej sel))
  ∧ (∀ (child child2 : Expr) (sel rej p n p2 n2 : List Node),
        evaluate (.logicalNot child) sel rej = .ok (.pair p n) →
        evaluate (.logicalNot child2) p n = .ok (.pair p2 n2) →
        p2 = sel ∧ n2 = rej) := by
  refine ⟨fun child sel rej => rfl, fun child child2 sel rej p n p2 n2 h1 h2 => ?_⟩
  have h1' := (show evaluate (.logicalNot child) sel rej = .ok (.pair rej sel) from rfl).symm.trans h1
  have h2' := (show evaluate (.logicalNot child2) p n = .ok (.pair n p) from rfl).symm.trans h2
  simp only [Except.ok.injEq, EvalResult.pair.injEq] at h1' h2'
  exact ⟨h2'.1.symm.trans h1'.2.symm, h2'.2.symm.trans h1'.1.symm⟩

/-- C9 witness: instantiating the involution at children that would raise
if evaluated and at the pair `([nodeLeaf], [])`. -/
theorem c9_witness : ([nodeLeaf] : List Node) = [nodeLeaf] ∧ ([] : List Node) = [] :=
  c9_logicalNot_swaps_and_is_involutive.2
    (.textLength (.attributeName "x")) (.textLength (.attributeName "x"))
    [nodeLeaf] [] [] [nodeLeaf] [nodeLeaf] [] (by decide) (by decide)

/-- C10: when the two children of a text predicate are not exactly one
AttributeName and one StringLiteral, `atr` and `val` stay Python `None`;
`None in x.attrs` is `False` on a str-keyed dict, so evaluation raises
nothing and classifies every input node as rejected: the result is
`([], node_set_pos)` for contains, starts-with and ends-with alike. -/
theorem c10_text_predicates_silently_reject (c0 c1 : Expr) (pos neg : List Node)
    (h : textAttrVal c0 c1 = Option.none) :
    evaluate (.textContains c0 c1) pos neg = .ok (.pair [] pos)
  ∧ evaluate (.textStartsWith c0 c1) pos neg = .ok (.pair [] pos)
  ∧ evaluate (.textEndsWith c0 c1) pos neg = .ok (.pair [] pos) := by
  refine ⟨?_, ?_, ?_⟩ <;> simp only [evaluate, textPredicateEvaluate, h] <;> rfl

/-- C10 witness: two attribute-reference children (as in
`contains(@a, @b)`) on a one-node selected set. -/
theorem c10_witness :
    evaluate (.textContains (.attributeName "a") (.attributeName "b")) [nodeA1] []
      = .ok (.pair [] [nodeA1])
  ∧ evaluate (.textStartsWith (.attributeName "a") (.attributeName "b")) [nodeA1] []
      = .ok (.pair [] [nodeA1])
  ∧ evaluate (.textEndsWith (.attributeName "a") (.attributeName "b")) [nodeA1] []
      = .ok (.pair [] [nodeA1]) :=
  c10_text_predicates_silently_reject (.attributeName "a") (.attributeName "b")
    [nodeA1] [] (by decide)

/-- The tree compiled from `[5 = 'a']`: `children[0] = StringLiteral`,
`children[1] = NumberLiteral`. -/
def mismatchNumStr : Expr := .comparison .eq (.stringLiteral "a") (.numberLiteral 5)

/-- The tree compiled from `['a' = 5]`. -/
def mismatchStrNum : Expr := .comparison .eq (.numberLiteral 5) (.stringLiteral "a")

/-- The tree the compiler actually builds for `[@a='1' and @b='2']`
(the precedence table ranks `and` above `=`): its `children[1]` is
itself a comparison, not an operand class. -/
def invalidChildCmp : Expr :=
  .comparison .eq (.stringLiteral "2")
    (.comparison .eq (.logicalAnd (.attributeName "b") (.stringLiteral "1"))
      (.attributeName "a"))

/-- C5: a NumberLiteral/StringLiteral comparison compiles in either
operand order, and the type-mismatch SyntaxError is raised only at
evaluation, on every evaluation (evaluate is a pure function of the
tree, so the error is deterministic); the same holds of a comparison
whose child is not an operand class, which the compiler builds for
`[@a='1' and @b='2']`. -/
theorem c5_type_errors_are_lazy_and_deterministic :
    compile_predicate ["[", "5", "=", "\x27a\x27", "]"] = .ok mismatchNumStr
  ∧ (∀ pos neg, evaluate mismatchNumStr pos neg = .error .comparisonTypeMismatch)
  ∧ compile_predicate ["[", "\x27a\x27", "=", "5", "]"] = .ok mismatchStrNum
  ∧ (∀ pos neg, evaluate mismatchStrNum pos neg = .error .comparisonTypeMismatch)
  ∧ compile_predicate ["[", "@a", "=", "\x271\x27", "and", "@b", "=", "\x272\x27", "]"]
      = .ok invalidChildCmp
  ∧ (∀ pos neg, evaluate invalidChildCmp pos neg = .error .invalidComparisonArguments) :=
  ⟨by decide, fun pos neg => rfl, by decide, fun pos neg => rfl, by decide,
   fun pos neg => rfl⟩

/-- C6 counterexample: the claim says a bare numeric token is appended
directly to the postfix output and never pushed onto the operator
stack.  The shunting step pushes `5` onto the operator stack (second
conjunct), and in the slice `( 5 , @a )` the number consequently comes
out AFTER the later operand `@a`, where direct appending would put it
first (first conjunct). -/
theorem c6_counterexample :
    predicate_to_postfix_pass ["(", "5", ",", "@a", ")"] = .ok ["@a", "5"]
  ∧ shunt_step [] [] "5" = .ok ([], ["5"]) := by
  decide

/-- C6 amended: a bare numeric token — like every token that is not a
comma, a space, a bracket, and does not start with `@` or a quote — is
treated as an OPERATOR: the step pops stacked operators of precedence
at least its default precedence 8 to the output and pushes the token
onto the operator stack; it is never itself appended to the output at
this step. -/
theorem c6_numeric_tokens_take_operator_path (t : String) (out operator_stack : List String)
    (h1 : (t == ",") = false) (h2 : (t == " ") = false)
    (h3 : l_b.contains t = false) (h4 : r_b.contains t = false)
    (h5 : strHeadIs t '@' = false) (h6 : strHeadIs t '\x27' = false) :
    shunt_step out operator_stack t =
      .ok (out ++ (popGreaterPrecedence t operator_stack).1,
           t :: (popGreaterPrecedence t operator_stack).2) := by
  have h3' : t ∉ l_b := by simpa using h3
  have h4' : t ∉ r_b := by simpa using h4
  simp [shunt_step, h1, h2, h3', h4', h5, h6]
  rfl

/-- C6 witness: the numeric token `5` against a stack holding `=`. -/
theorem c6_witness : shunt_step [] ["="] "5" = .ok ([], ["5", "="]) :=
  (c6_numeric_tokens_take_operator_path "5" [] ["="] (by decide) (by decide)
    (by decide) (by decide) (by decide) (by decide)).trans (by decide)

/-- C4 counterexample: the claim says a reduction ending with more than
one subtree raises and returns no result.  The slice `[@a @b]` leaves
the two leaves on the operand stack, and compilation silently returns
the earliest-pushed one, `AttributeName a`. -/
theorem c4_counterexample :
    compile_predicate ["[", "@a", "@b", "]"] = .ok (.attributeName "a") := by
  decide

/-- C4 amended: an operator meeting an empty operand stack IS a
compile-time error (Python IndexError from `pop`), and so is a closing
bracket with no opener on the operator stack; but a reduction finishing
with more than one subtree raises nothing — `tree[0]`, the
earliest-pushed subtree, is returned — and an unmatched opening bracket
is silently discarded. -/
theorem c4_structural_error_behaviour :
    (∀ t : String,
        t ∈ ([">", ">=", "<", "<=", "=", "!=", "and", "or", "not",
              "ends-with", "starts-with", "contains", "length"] : List String) →
        tree_step [] t = .error .indexError)
  ∧ (∀ (ts : List String) (s : List Expr) (e : Expr),
        ts.foldlM tree_step [] = .ok s → s.getLast? = some e →
        predicate_postfix_to_tree ts = .ok e)
  ∧ predicate_to_postfix_pass ["]"] = .error .indexError
  ∧ predicate_to_postfix_pass ["(", "@a"] = .ok ["@a"] := by
  refine ⟨?_, ?_, by decide, by decide⟩
  · intro t ht
    fin_cases ht <;> decide
  · intro ts s e hfold hlast
    have hred : predicate_postfix_to_tree ts =
        (match s.getLast? with
         | some x => pure x
         | _ => throw XErr.indexError) := by
      simp only [predicate_postfix_to_tree, hfold]
      rfl
    rw [hred, hlast]
    rfl

/-- C4 witness: the operator `>` against an empty stack, and the
two-root postfix sequence `@a @b`. -/
theorem c4_witness :
    tree_step [] ">" = .error .indexError
  ∧ predicate_postfix_to_tree ["@a", "@b"] = .ok (.attributeName "a") :=
  ⟨c4_structural_error_behaviour.1 ">" (by decide),
   c4_structural_error_behaviour.2.1 ["@a", "@b"]
     [.attributeName "b", .attributeName "a"] (.attributeName "a") (by decide) (by decide)⟩

/-- Members of a successful fallible list comprehension come from the
input list. -/
theorem filterExcept_ok_mem {f : Node → Except XErr Bool} :
    ∀ {l r : List Node}, filterExcept f l = .ok r → ∀ x ∈ r, x ∈ l := by
  intro l
  induction l with
  | nil =>
    intro r h x hx
    simp only [filterExcept, pure, Except.pure, Except.ok.injEq] at h
    subst h
    simp at hx
  | cons a as ih =>
    intro r h x hx
    simp only [filterExcept, bind, Except.bind] at h
    cases hfa : f a with
    | error e => rw [hfa] at h; cases h
    | ok b =>
      rw [hfa] at h
      cases hrec : filterExcept f as with
      | error e => rw [hrec] at h; cases h
      | ok rest =>
        rw [hrec] at h
        simp only [pure, Except.pure, Except.ok.injEq] at h
        subst h
        cases b with
        | true =>
          rcases List.mem_cons.mp (by simpa using hx) with rfl | hx2
          · exact List.mem_cons_self _ _
          · exact List.mem_cons_of_mem _ (ih hrec x hx2)
        | false =>
          exact List.mem_cons_of_mem _ (ih hrec x (by simpa using hx))

/-- The `(pos, [x for x in input if x not in pos])` result shape of the
attribute branches of the comparisons is disjoint and drawn from the
input. -/
theorem partition_disjoint_subset (p pos : List Node)
    (hsub : ∀ x ∈ p, x ∈ pos) :
    (p.all fun x => !((pos.filter fun y => !(p.contains y)).contains x)) = true
  ∧ ((p ++ pos.filter fun y => !(p.contains y)).all fun x => pos.contains x) = true := by
  constructor
  · rw [List.all_eq_true]
    intro x hx
    simp [List.mem_filter]
    exact Or.inr hx
  · rw [List.all_eq_true]
    intro x hx
    rcases List.mem_append.mp hx with h1 | h2
    · simpa using hsub x h1
    · simpa using (List.mem_filter.mp h2).1

/-- Two pointwise-complementary filters of one list are disjoint and
drawn from it — the result shape of the text predicates. -/
theorem complementary_filter_partition (pos : List Node) (f g : Node → Bool)
    (hfg : ∀ x, g x = !(f x)) :
    ((pos.filter f).all fun x => !((pos.filter g).contains x)) = true
  ∧ ((pos.filter f ++ pos.filter g).all fun x => pos.contains x) = true := by
  constructor
  · rw [List.all_eq_true]
    intro x hx
    have hf : f x = true := (List.mem_filter.mp hx).2
    simp [List.mem_filter, hfg, hf]
  · rw [List.all_eq_true]
    intro x hx
    rcases List.mem_append.mp hx with h1 | h2
    · simpa using (List.mem_filter.mp h1).1
    · simpa using (List.mem_filter.mp h2).1

/-- Any successful run of the common attribute-branch result shape
`(pos2, [x for x in pos if x not in pos2])` is a disjoint partition of a
subset of the input selected list. -/
theorem bindFilterPair_ok {fn : Node → Except XErr Bool} {pos p n : List Node}
    (h : (do
        let pos2 ← filterExcept fn pos
        pure (EvalResult.pair pos2 (pos.filter (fun x => !(pos2.contains x))))
        : Except XErr EvalResult) = .ok (.pair p n)) :
    (p.all fun x => !(n.contains x)) = true
  ∧ ((p ++ n).all fun x => pos.contains x) = true := by
  simp only [bind, Except.bind] at h
  cases hres : filterExcept fn pos with
  | error e => rw [hres] at h; cases h
  | ok p0 =>
    rw [hres] at h
    simp only [pure, Except.pure, Except.ok.injEq, EvalResult.pair.injEq] at h
    obtain ⟨rfl, rfl⟩ := h
    exact partition_disjoint_subset p0 pos (filterExcept_ok_mem hres)

/-- A comparison whose `children[1]` (the left infix operand) is an
AttributeName takes one of the two attribute branches; whichever
succeeds partitions a subset of the input selected list. -/
theorem comparisonEvaluate_attr_partition (op : CmpOp) (c0 : Expr) (k : String)
    {pos neg p n : List Node}
    (h : comparisonEvaluate op c0 (.attributeName k) pos neg = .ok (.pair p n)) :
    (p.all fun x => !(n.contains x)) = true
  ∧ ((p ++ n).all fun x => pos.contains x) = true := by
  cases c0 <;> first
    | exact bindFilterPair_ok h
    | exact Except.noConfusion h

/-- Every result of the shared text-predicate body is a disjoint
partition of a subset of the input selected list. -/
theorem textPredicateEvaluate_partition (test : String → String → Bool) (c0 c1 : Expr)
    {pos p n : List Node}
    (h : textPredicateEvaluate test c0 c1 pos = .pair p n) :
    (p.all fun x => !(n.contains x)) = true
  ∧ ((p ++ n).all fun x => pos.contains x) = true := by
  unfold textPredicateEvaluate at h
  cases hav : textAttrVal c0 c1 with
  | none =>
    rw [hav] at h
    simp only [EvalResult.pair.injEq] at h
    obtain ⟨rfl, rfl⟩ := h
    constructor
    · simp
    · rw [List.all_eq_true]
      intro x hx
      simpa using (by simpa using hx : x ∈ pos)
  | some av =>
    obtain ⟨atr, val⟩ := av
    rw [hav] at h
    simp only [EvalResult.pair.injEq] at h
    obtain ⟨rfl, rfl⟩ := h
    exact complementary_filter_partition pos _ _
      (fun x => by cases x.attrs.lookup atr <;> simp)

/-- C3 amended: the claimed invariant — output selected and rejected are
disjoint and drawn from the input selected set — holds for every
comparison whose `children[1]` is an attribute reference (both attribute
branches) and for every text predicate; it fails for LogicalNot and for
literal-only comparisons (see the counterexample), which pass nodes of
the input rejected set through to their outputs. -/
theorem c3_attr_comparisons_and_text_predicates_partition :
    (∀ (op : CmpOp) (c0 : Expr) (k : String) (pos neg p n : List Node),
        evaluate (.comparison op c0 (.attributeName k)) pos neg = .ok (.pair p n) →
        (p.all fun x => !(n.contains x)) = true
      ∧ ((p ++ n).all fun x => pos.contains x) = true)
  ∧ (∀ (c0 c1 : Expr) (pos neg p n : List Node),
        evaluate (.textContains c0 c1) pos neg = .ok (.pair p n) →
        (p.all fun x => !(n.contains x)) = true
      ∧ ((p ++ n).all fun x => pos.contains x) = true)
  ∧ (∀ (c0 c1 : Expr) (pos neg p n : List Node),
        evaluate (.textStartsWith c0 c1) pos neg = .ok (.pair p n) →
        (p.all fun x => !(n.contains x)) = true
      ∧ ((p ++ n).all fun x => pos.contains x) = true)
  ∧ (∀ (c0 c1 : Expr) (pos neg p n : List Node),
        evaluate (.textEndsWith c0 c1) pos neg = .ok (.pair p n) →
        (p.all fun x => !(n.contains x)) = true
      ∧ ((p ++ n).all fun x => pos.contains x) = true) :=
  ⟨fun op c0 k pos neg p n h => comparisonEvaluate_attr_partition op c0 k h,
   fun c0 c1 pos neg p n h =>
     textPredicateEvaluate_partition pyContainsTest c0 c1 (Except.ok.inj h),
   fun c0 c1 pos neg p n h =>
     textPredicateEvaluate_partition pyStartswithTest c0 c1 (Except.ok.inj h),
   fun c0 c1 pos neg p n h =>
     textPredicateEvaluate_partition pyEndswithTest c0 c1 (Except.ok.inj h)⟩

/-- C3 witness: `@a = '1'` and `contains/starts-with/ends-with(@a, '1')`
on the single node with a="1". -/
theorem c3_witness :
    ((([nodeA1] : List Node).all fun x => !(([] : List Node).contains x)) = true
      ∧ ((([nodeA1] : List Node) ++ ([] : List Node)).all
          fun x => ([nodeA1] : List Node).contains x) = true)
  ∧ ((([nodeA1] : List Node).all fun x => !(([] : List Node).contains x)) = true
      ∧ ((([nodeA1] : List Node) ++ ([] : List Node)).all
          fun x => ([nodeA1] : List Node).contains x) = true) :=
  ⟨c3_attr_comparisons_and_text_predicates_partition.1 .eq (.stringLiteral "1") "a"
     [nodeA1] [] [nodeA1] [] (by decide),
   c3_attr_comparisons_and_text_predicates_partition.2.1 (.attributeName "a")
     (.stringLiteral "1") [nodeA1] [] [nodeA1] [] (by decide)⟩

-- Every member of a descendant enumeration is structurally smaller than
-- the node (or child list) it was enumerated from.
mutual
theorem sizeOf_lt_of_mem_find_all : ∀ (x y : Node), y ∈ x.find_all → sizeOf y < sizeOf x
  | .mk nm a t cs, y, h => by
    have hd : y ∈ NodeList.descendants cs := by simpa [Node.find_all] using h
    have := sizeOf_lt_of_mem_descendants cs y hd
    simp only [Node.mk.sizeOf_spec]
    omega
theorem sizeOf_lt_of_mem_descendants :
    ∀ (cs : NodeList) (y : Node), y ∈ NodeList.descendants cs → sizeOf y < sizeOf cs
  | .nil, y, h => by simp [NodeList.descendants] at h
  | .cons c cs, y, h => by
    have h3 : y = c ∨ y ∈ c.find_all ∨ y ∈ NodeList.descendants cs := by
      simpa [NodeList.descendants, List.mem_append, List.mem_cons] using h
    simp only [NodeList.cons.sizeOf_spec]
    rcases h3 with rfl | h4 | h5
    · omega
    · have := sizeOf_lt_of_mem_find_all c y h4
      omega
    · have := sizeOf_lt_of_mem_descendants cs y h5
      omega
end

/-- A node is never one of its own descendants. -/
theorem find_all_not_contains_self (x : Node) : (x.find_all).contains x = false := by
  rw [Bool.eq_false_iff]
  intro hc
  have hx : x ∈ x.find_all := by simpa using hc
  exact absurd (sizeOf_lt_of_mem_find_all x x hx) (lt_irrefl _)

/-- C7 amended: SelectDescendantsOrSelf (`//`) and its alias
SelectWildcard (`*`) return, for every input pair, the concatenation
over each selected node of that node's `find_all()` enumeration — its
descendants only; the node itself is never part of its own
contribution — with the rejected list reset to empty.  On a parent with
a single child, the output is exactly the child. -/
theorem c7_selectAll_expands_to_descendants_only :
    (∀ (sel rej : List Node), evaluate .selectAll sel rej = .ok (.pair (descendantsOfAll sel) []))
  ∧ (∀ (sel rej : List Node), evaluate .selectStar sel rej = .ok (.pair (descendantsOfAll sel) []))
  ∧ (∀ x : Node, (x.find_all).contains x = false)
  ∧ evaluate .selectAll [nodeParent] [] = .ok (.pair [nodeLeaf] []) :=
  ⟨fun sel rej => rfl, fun sel rej => rfl, find_all_not_contains_self, by decide⟩
